import Mathlib

set_option autoImplicit false

namespace Movatalk

/-! Shallow embedding of the movatalk pipeline engine
    (src/movatalk/pipeline/engine.py and src/movatalk/pipeline/components.py).

    Python dictionaries are modelled as association lists in insertion order
    (lookup finds the first matching key; assignment overwrites in place or
    appends).  Machine-level collaborators (subprocess, exec/eval of Python
    code, file loading, the ParentalControl backend) are modelled as oracle
    parameters; all engine control flow, context bookkeeping and error
    handling is translated directly from the source. -/

/-- A Python value as it occurs in pipeline contexts: None, bool, int,
    string, list, dict (insertion-ordered association list) or an opaque
    collaborator object identified by a tag. -/
inductive PyVal where
  | none
  | bool (b : Bool)
  | int (n : Int)
  | str (s : String)
  | list (xs : List PyVal)
  | dict (kvs : List (String × PyVal))
  | obj (tag : String)

/-- Python `d.get(k)`: first binding of `k` in insertion order. -/
def dictGet : List (String × PyVal) → String → Option PyVal
  | [], _ => Option.none
  | (k', v) :: rest, k => if k' == k then some v else dictGet rest k

/-- Python `k in d`. -/
def hasKey (kvs : List (String × PyVal)) (k : String) : Bool :=
  (dictGet kvs k).isSome

/-- Python `d[k] = v`: overwrite the existing binding in place, else append. -/
def dictSet : List (String × PyVal) → String → PyVal → List (String × PyVal)
  | [], k, v => [(k, v)]
  | (k', v') :: rest, k, v =>
    if k' == k then (k, v) :: rest else (k', v') :: dictSet rest k v

/-- Python `\x7b**a, **b\x7d`: all of `a`, then entries of `b` with `b`
    winning on key collision. -/
def dictMerge (a b : List (String × PyVal)) : List (String × PyVal) :=
  b.foldl (fun acc kv => dictSet acc kv.1 kv.2) a

mutual

/-- Python `repr` (as used when a value is rendered inside a container). -/
def pyRepr : PyVal → String
  | .none => "None"
  | .bool b => cond b "True" "False"
  | .int n => toString n
  | .str s => "\x27" ++ s ++ "\x27"
  | .list xs => "[" ++ String.intercalate ", " (pyReprList xs) ++ "]"
  | .dict kvs => "\x7b" ++ String.intercalate ", " (pyReprKVs kvs) ++ "\x7d"
  | .obj t => "<" ++ t ++ " object>"

def pyReprList : List PyVal → List String
  | [] => []
  | v :: vs => pyRepr v :: pyReprList vs

def pyReprKVs : List (String × PyVal) → List String
  | [] => []
  | (k, v) :: kvs => ("\x27" ++ k ++ "\x27: " ++ pyRepr v) :: pyReprKVs kvs

end

/-- Python `str(v)`: the bare string for strings, `repr`-style otherwise. -/
def pyStr : PyVal → String
  | .str s => s
  | v => pyRepr v

/-- The per-run execution context created by `PipelineEngine.load_pipeline`:
    a dict with keys `variables`, `state`, `results`, `errors`; the
    `parental_control` collaborator slot is recorded as a presence flag
    (the handle itself is an opaque object). -/
structure Ctx where
  (vars : List (String × PyVal))
  (state : List (String × PyVal))
  (results : List (String × PyVal))
  (errors : List String)
  (parental_control : Bool := false)

/-- `self.pipeline_context` viewed as the Python dict object it is. -/
def ctxAsPyDict (ctx : Ctx) : PyVal :=
  .dict ([("variables", .dict ctx.vars), ("state", .dict ctx.state),
          ("results", .dict ctx.results),
          ("errors", .list (ctx.errors.map .str))]
    ++ (if ctx.parental_control then [("parental_control", .obj "ParentalControl")] else []))

/-- `self.pipeline_context["errors"].append(msg)`. -/
def appendError (ctx : Ctx) (msg : String) : Ctx :=
  { ctx with errors := ctx.errors ++ [msg] }

/-! ## Variable resolver (`PipelineEngine._resolve_variables_in_string`) -/

/-- The four context-root segment names special-cased by `replace_var`. -/
def isRootPart (p : String) : Bool :=
  p == "variables" || p == "results" || p == "errors" || p == "state"

/-- The context root selected by a root segment, in the order the source
    tests them (`variables`, `results`, `errors`, `state`). -/
def rootVal (ctx : Ctx) (p : String) : PyVal :=
  if p == "variables" then .dict ctx.vars
  else if p == "results" then .dict ctx.results
  else if p == "errors" then .list (ctx.errors.map .str)
  else .dict ctx.state

/-- The walk inside `replace_var`: for each dotted segment, a root name
    resets `current` to that context root regardless of position; otherwise
    a dict steps via `current.get(part, "")` and anything else returns the
    empty string immediately.  An exhausted path returns `str(current)`. -/
def resolveGo (ctx : Ctx) : PyVal → List String → String
  | current, [] => pyStr current
  | current, p :: rest =>
    if p == "variables" then resolveGo ctx (.dict ctx.vars) rest
    else if p == "results" then resolveGo ctx (.dict ctx.results) rest
    else if p == "errors" then resolveGo ctx (.list (ctx.errors.map .str)) rest
    else if p == "state" then resolveGo ctx (.dict ctx.state) rest
    else
      match current with
      | .dict kvs => resolveGo ctx ((dictGet kvs p).getD (.str "")) rest
      | _ => ""

/-- Python `s.split('.')` on the accumulated segment characters. -/
def splitDotsAux : List Char → List Char → List (List Char)
  | [], acc => [acc.reverse]
  | '.' :: rest, acc => acc.reverse :: splitDotsAux rest []
  | c :: rest, acc => splitDotsAux rest (c :: acc)

/-- Python `s.split('.')`: dot-separated segments, empty segments kept. -/
def splitDots (s : String) : List String :=
  (splitDotsAux s.data []).map String.mk

/-- `replace_var`: split the captured name on dots and walk from the
    whole pipeline context. -/
def replaceVar (ctx : Ctx) (name : String) : String :=
  resolveGo ctx (ctxAsPyDict ctx) (splitDots name)

/-- A character matched by the reference pattern `[\w\d\._]`. -/
def isRefChar (c : Char) : Bool :=
  c.isAlphanum || c == '_' || c == '.'

/-- Try to match `NAME\x7d` (at least one reference character followed by a
    closing brace) at the head of the character list; returns the name and
    the remaining characters. -/
def takeRef (cs : List Char) : Option (List Char × List Char) :=
  if (cs.takeWhile isRefChar).isEmpty then Option.none
  else
    match cs.dropWhile isRefChar with
    | '\x7d' :: tail => some (cs.takeWhile isRefChar, tail)
    | _ => Option.none

/-- `re.sub(r"\$\x7b([\w\d\._]+)\x7d", replace_var, text)` as a left-to-right
    scan: at each position the pattern either matches (the reference is
    replaced, the scan resumes after its closing brace) or the character is
    copied.  The scan consumes at least one character per step, so a fuel
    equal to the input length makes the recursion structural; the
    fuel-exhausted branch is unreachable from `resolveChars`. -/
def resolveCharsF (ctx : Ctx) : Nat → List Char → List Char
  | 0, rest => rest
  | fuel + 1, cs =>
    match cs with
    | '$' :: '\x7b' :: rest =>
      match takeRef rest with
      | some (name, tail) =>
        (replaceVar ctx (String.mk name)).data ++ resolveCharsF ctx fuel tail
      | Option.none => '$' :: resolveCharsF ctx fuel ('\x7b' :: rest)
    | c :: rest => c :: resolveCharsF ctx fuel rest
    | [] => []

/-- The scan started with enough fuel for the whole input. -/
def resolveChars (ctx : Ctx) (cs : List Char) : List Char :=
  resolveCharsF ctx cs.length cs

/-- `PipelineEngine._resolve_variables_in_string` on a string input. -/
def resolveVariablesInString (ctx : Ctx) (text : String) : String :=
  String.mk (resolveChars ctx text.data)

mutual

/-- `PipelineEngine._resolve_variables`: recursively resolve strings inside
    dicts and lists; other values pass through. -/
def resolveVariables (ctx : Ctx) : PyVal → PyVal
  | .str s => .str (resolveVariablesInString ctx s)
  | .dict kvs => .dict (resolveVariablesKVs ctx kvs)
  | .list xs => .list (resolveVariablesList ctx xs)
  | v => v

def resolveVariablesList (ctx : Ctx) : List PyVal → List PyVal
  | [] => []
  | v :: vs => resolveVariables ctx v :: resolveVariablesList ctx vs

def resolveVariablesKVs (ctx : Ctx) : List (String × PyVal) → List (String × PyVal)
  | [] => []
  | (k, v) :: kvs => (k, resolveVariables ctx v) :: resolveVariablesKVs ctx kvs

end

/-- Mirror of the `replace_var` walk that records whether the path misses:
    a lookup of an absent key in a dict marks a miss (the walk continues on
    the empty string, as the source does), a non-mapping intermediate at a
    non-root segment is a definitive miss, and a root segment resets both
    the walk and the miss flag. -/
def missGo (ctx : Ctx) : PyVal → Bool → List String → Bool
  | _, missed, [] => missed
  | current, missed, p :: rest =>
    if p == "variables" then missGo ctx (.dict ctx.vars) false rest
    else if p == "results" then missGo ctx (.dict ctx.results) false rest
    else if p == "errors" then missGo ctx (.list (ctx.errors.map .str)) false rest
    else if p == "state" then missGo ctx (.dict ctx.state) false rest
    else
      match current with
      | .dict kvs =>
        match dictGet kvs p with
        | some v => missGo ctx v missed rest
        | Option.none => missGo ctx (.str "") true rest
      | _ => true

/-- A dotted reference path that does not resolve against the context
    (ends on an absent key or crosses a non-mapping intermediate without a
    later root reset). -/
def pathMisses (ctx : Ctx) (name : String) : Bool :=
  missGo ctx (ctxAsPyDict ctx) false (splitDots name)

/-! ## Steps and the step dispatcher (`PipelineEngine._execute_step`) -/

/-- A step entry of the pipeline document.  Fields mirror the keys read by
    the engine; `if` is spelled `if_` and the `variables` key of a
    `pipeline` step is spelled `vars` because those words are reserved in
    Lean.  `step.get(key)` with no default is an `Option` field;
    `step.get(key, default)` is a plain field with that default. -/
structure Step where
  (name : Option String := Option.none)
  (type : Option String := Option.none)
  (if_ : Option String := Option.none)
  (continue_on_error : Bool := false)
  (component : Option String := Option.none)
  (params : List (String × PyVal) := [])
  (command : Option String := Option.none)
  (working_dir : Option String := Option.none)
  (ignore_errors : Bool := false)
  (code : Option String := Option.none)
  (imports : List String := [])
  (path : Option String := Option.none)
  (vars : List (String × PyVal) := [])
  (export_variables : Bool := false)

/-- Result of a type-specific step handler: a `(success, result)` return
    with the context as the handler left it, or a raised exception carrying
    `str(e)` and the context at the raise point. -/
inductive Outcome where
  | ret (success : Bool) (result : PyVal) (ctx : Ctx)
  | exn (msg : String) (ctx : Ctx)

/-- Final state of a sub-engine run started by a `pipeline` step
    (`sub_engine.pipeline_context` after `sub_engine.start()`). -/
structure SubRun where
  (success : Bool)
  (vars : List (String × PyVal))
  (results : List (String × PyVal))
  (errors : List String)

/-- Oracles for the parts of a step that leave the engine: `eval` on guard
    expressions (`Option.none` = the evaluation raised), `exec` of a python
    step (`Except.error` = raised, `Except.ok` = the `result` variable and
    the context as mutated by the code), the shell subprocess (exit code,
    stdout, stderr), the working directory `os.getcwd()`, the component
    registry, and loading-plus-running a sub-pipeline file
    (`Option.none` = `load_pipeline_from_file` returned false).

    Guard `eval` is modelled as pure in the context: the condition language
    described by the spec (comparisons, boolean connectives, identifier
    lookup) has no side effects. -/
structure Env where
  (evalO : String → Ctx → Option Bool)
  (execO : String → List String → Ctx → Except String (PyVal × Ctx))
  (shellO : String → String → Except String (Int × String × String))
  (cwd : String := "/")
  (registry : String → Option (List (String × PyVal) → Ctx → Outcome))
  (subRunO : String → List (String × PyVal) → Option SubRun)

/-- `PipelineEngine._evaluate_condition`: a missing guard is true; the
    guard string is first passed through the variable resolver; an
    evaluation failure is caught, printed and treated as false.  The
    context is returned untouched on every path. -/
def evaluateCondition (evalO : String → Ctx → Option Bool) (ctx : Ctx) :
    Option String → Bool
  | Option.none => true
  | some c =>
    match evalO (resolveVariablesInString ctx c) ctx with
    | some b => b
    | Option.none => false

/-- `PipelineEngine._execute_component_step`: component name and registry
    lookup are required (a failure raises out to `_execute_step`); params
    are passed through `_resolve_variables` and the executor is invoked. -/
def executeComponentStep (env : Env) (step : Step) (ctx : Ctx) : Outcome :=
  match step.component with
  | Option.none => .exn "Brak nazwy komponentu dla kroku." ctx
  | some cn =>
    match env.registry cn with
    | Option.none => .exn ("Nieznany komponent: " ++ cn) ctx
    | some exec =>
      exec (resolveVariablesKVs ctx step.params) ctx

/-- `PipelineEngine._execute_shell_step`: command required; command and
    working directory resolved; success iff exit code 0 or `ignore_errors`;
    on failure the stderr text is appended to `errors`; a raise inside the
    inner `try` is converted to a `(False, error)` return. -/
def executeShellStep (env : Env) (step : Step) (ctx : Ctx) : Outcome :=
  match step.command with
  | Option.none => .exn "Brak komendy dla kroku shell." ctx
  | some cmd0 =>
    let cmd := resolveVariablesInString ctx cmd0
    let wd := resolveVariablesInString ctx (step.working_dir.getD env.cwd)
    match env.shellO cmd wd with
    | .ok (exitCode, out, err) =>
      let result := PyVal.dict [("exit_code", .int exitCode),
        ("stdout", .str out), ("stderr", .str err)]
      let success := exitCode == 0 || step.ignore_errors
      if success then .ret true result ctx
      else .ret false result (appendError ctx ("Błąd komendy shell: " ++ err))
    | .error e =>
      let msg := "Błąd wykonania komendy shell: " ++ e
      .ret false (.dict [("error", .str msg)]) (appendError ctx msg)

/-- `PipelineEngine._execute_python_step`: code required; the code string
    is resolved; the `exec` oracle yields the `result` local and the
    mutated context, or raises, in which case the message is appended to
    `errors` and a `(False, error)` pair is returned. -/
def executePythonStep (env : Env) (step : Step) (ctx : Ctx) : Outcome :=
  match step.code with
  | Option.none => .exn "Brak kodu dla kroku python." ctx
  | some code0 =>
    match env.execO (resolveVariablesInString ctx code0) step.imports ctx with
    | .ok (result, ctx') => .ret true result ctx'
    | .error e =>
      let msg := "Błąd wykonania kodu Python: " ++ e
      .ret false (.dict [("error", .str msg)]) (appendError ctx msg)

/-- The copy-back loop of `_execute_sub_pipeline_step`: every key of the
    sub-engine variables that is absent from the (growing) parent dict is
    appended; existing parent keys are never overwritten. -/
def exportMerge (parent sub : List (String × PyVal)) : List (String × PyVal) :=
  sub.foldl (fun acc kv => if hasKey acc kv.1 then acc else acc ++ [kv]) parent

/-- `PipelineEngine._execute_sub_pipeline_step`: path required and
    resolved; the sub-engine is seeded with the parent variables updated by
    the step-local `variables`; on a successful load the sub-run result is
    the pair of its `results` and `errors`, and with `export_variables` the
    copy-back loop runs; on a failed load an error is appended and a
    `(False, error)` pair is returned. -/
def executeSubPipelineStep (env : Env) (step : Step) (ctx : Ctx) : Outcome :=
  match step.path with
  | Option.none => .exn "Brak ścieżki do pipeline\x27a dla kroku." ctx
  | some p0 =>
    let p := resolveVariablesInString ctx p0
    match env.subRunO p (dictMerge ctx.vars step.vars) with
    | some sub =>
      let result := PyVal.dict [("results", .dict sub.results),
        ("errors", .list (sub.errors.map .str))]
      if step.export_variables then
        .ret sub.success result { ctx with vars := exportMerge ctx.vars sub.vars }
      else
        .ret sub.success result ctx
    | Option.none =>
      let msg := "Nie udało się wczytać pod-pipeline\x27a: " ++ p
      .ret false (.dict [("error", .str msg)]) (appendError ctx msg)

/-- The step types accepted by the `_execute_step` dispatch chain. -/
def acceptedTypes : List String := ["component", "shell", "python", "pipeline"]

/-- The type dispatch chain of `_execute_step`; an unknown type raises. -/
def dispatch (env : Env) (t : String) (step : Step) (ctx : Ctx) : Outcome :=
  if t == "component" then executeComponentStep env step ctx
  else if t == "shell" then executeShellStep env step ctx
  else if t == "python" then executePythonStep env step ctx
  else if t == "pipeline" then executeSubPipelineStep env step ctx
  else .exn ("Nieznany typ kroku: " ++ t) ctx

/-- The `except` clause of `_execute_step`: wrap the message, append it to
    `errors` and return `(False, dict with the error)`. -/
def stepFailure (msg : String) (ctx : Ctx) : (Bool × PyVal) × Ctx :=
  let m := "Błąd wykonania kroku: " ++ msg
  ((false, .dict [("error", .str m)]), appendError ctx m)

/-- `PipelineEngine._execute_step`: missing type raises; a guard that is
    not satisfied returns `(True, None)` untouched; otherwise the
    type-specific handler runs and a raise from it is caught by the
    `except` clause. -/
def executeStep (env : Env) (step : Step) (ctx : Ctx) : (Bool × PyVal) × Ctx :=
  match step.type with
  | Option.none => stepFailure "Brak typu dla kroku." ctx
  | some t =>
    if evaluateCondition env.evalO ctx step.if_ then
      match dispatch env t step ctx with
      | .ret s r c => ((s, r), c)
      | .exn m c => stepFailure m c
    else ((true, PyVal.none), ctx)

/-- The step loop of `PipelineEngine._execute_pipeline` (no concurrent
    `stop()` call, so the `self.running` flag stays true between steps):
    each step result is stored under `results[step_name]`, and a failure
    without `continue_on_error` returns false immediately. -/
def executeSteps (env : Env) : List Step → Nat → Ctx → Bool × Ctx
  | [], _, ctx => (true, ctx)
  | step :: rest, i, ctx =>
    let stepName := step.name.getD ("step_" ++ toString i)
    let r := executeStep env step ctx
    let ctx' := { r.2 with results := dictSet r.2.results stepName r.1.2 }
    if !r.1.1 && !step.continue_on_error then (false, ctx')
    else executeSteps env rest (i + 1) ctx'

/-- A loaded pipeline document (the keys the engine reads). -/
structure Pipeline where
  (vars : List (String × PyVal) := [])
  (steps : List Step := [])

/-- The context built by `load_pipeline`. -/
def loadContext (p : Pipeline) : Ctx :=
  { vars := p.vars, state := [], results := [], errors := [] }

/-- `load_pipeline` followed by a synchronous `start()`:
    `_execute_pipeline` over the document steps. -/
def executePipeline (env : Env) (p : Pipeline) : Bool × Ctx :=
  executeSteps env p.steps 0 (loadContext p)

/-! ## ParentalControlComponent (components.py) -/

/-- Answers of the `ParentalControl` collaborator, which lives outside the
    pipeline core: `check_time_restrictions()`, `check_usage_limit()`,
    `get_remaining_time()` and `filter_input` (filtered-or-None plus a
    diagnostic message). -/
structure PCOracle where
  (check_time : Bool)
  (check_usage : Bool)
  (remaining : Int)
  (filterO : PyVal → Option String × String)

/-- The plain `current.get(part, "")` walk used by `filter_input` (and by
    the loop component for a `$\x7b...\x7d` collection): no root
    special-casing; reaching a non-dict raises `AttributeError`, which the
    caller catches. -/
def plainGet : PyVal → List String → Except Unit PyVal
  | cur, [] => .ok cur
  | .dict kvs, p :: rest => plainGet ((dictGet kvs p).getD (.str "")) rest
  | _, _ :: _ => .error ()

/-- A Python value used as a dict key; string keys keep their text, other
    values are rendered (the model keys dicts by strings). -/
def keyOf : PyVal → String
  | .str s => s
  | v => pyRepr v

/-- `ParentalControlComponent.execute`: requires `action`; stores the
    collaborator handle under `context["parental_control"]`; `check_time`
    and `check_usage` return the allow decision as the success flag without
    raising; `filter_input` resolves an input reference with the plain
    walk, filters, writes `results[output_var]` and succeeds iff the
    filtered text is not None; an unknown action fails.  The component
    catches its own exceptions (a missing required parameter becomes a
    `(False, error)` return). -/
def parentalControlComponent (pc : PCOracle) (params : List (String × PyVal))
    (ctx : Ctx) : Outcome :=
  match dictGet params "action" with
  | Option.none =>
    .ret false (.dict [("error",
      .str "Błąd kontroli rodzicielskiej: Brakujące parametry dla komponentu parental_control: action")]) ctx
  | some action =>
    let ctx := { ctx with parental_control := true }
    match action with
    | .str s =>
      if s == "check_time" then
        .ret pc.check_time (.dict [("allowed", .bool pc.check_time)]) ctx
      else if s == "check_usage" then
        .ret pc.check_usage (.dict [("allowed", .bool pc.check_usage),
          ("remaining_minutes", .int pc.remaining)]) ctx
      else if s == "filter_input" then
        match dictGet params "input_text", dictGet params "output_var" with
        | Option.none, Option.none =>
          .ret false (.dict [("error",
            .str "Błąd kontroli rodzicielskiej: Brakujące parametry dla komponentu parental_control: input_text, output_var")]) ctx
        | Option.none, some _ =>
          .ret false (.dict [("error",
            .str "Błąd kontroli rodzicielskiej: Brakujące parametry dla komponentu parental_control: input_text")]) ctx
        | some _, Option.none =>
          .ret false (.dict [("error",
            .str "Błąd kontroli rodzicielskiej: Brakujące parametry dla komponentu parental_control: output_var")]) ctx
        | some it, some ov =>
          let resolved : Except String PyVal :=
            match it with
            | .str t =>
              if t.startsWith "$\x7b" && t.endsWith "\x7d" then
                let vn := ((t.drop 2).dropRight 1).trim
                match plainGet (ctxAsPyDict ctx) (splitDots vn) with
                | .ok v => .ok v
                | .error _ => .error vn
              else .ok (.str t)
            | v => .ok v
          match resolved with
          | .error vn =>
            .ret false (.dict [("error", .str ("Nie znaleziono zmiennej " ++ vn))]) ctx
          | .ok inputText =>
            let fr := pc.filterO inputText
            let filteredPy := match fr.1 with
              | some ft => PyVal.str ft
              | Option.none => PyVal.none
            let ctx' := { ctx with results := dictSet ctx.results (keyOf ov) filteredPy }
            .ret fr.1.isSome (.dict [("filtered_text", filteredPy),
              ("filter_message", .str fr.2), ("passed", .bool fr.1.isSome)]) ctx'
      else
        .ret false (.dict [("error", .str ("Nieznana akcja: " ++ s))]) ctx
    | v =>
      .ret false (.dict [("error", .str ("Nieznana akcja: " ++ pyStr v))]) ctx

/-! ## Condition evaluation namespaces (C6)

    Modelled Python `eval` name-resolution semantics: a plain name in the
    evaluated expression is looked up in the locals mapping, then the
    globals mapping, then the builtins of the globals; when the globals
    dict passed to `eval` has no `__builtins__` key, CPython inserts the
    real builtins module before evaluating, so every default builtin name
    resolves.  `defaultBuiltinNames` lists representative members of that
    module. -/

def defaultBuiltinNames : List String :=
  ["abs", "bool", "dict", "eval", "exec", "getattr", "globals", "len",
   "list", "max", "min", "open", "print", "range", "setattr", "str",
   "type", "vars", "__import__"]

/-- Builtin-name visibility for a globals dict: an explicit
    `__builtins__` entry bounds the visible names (an empty dict blocks
    them all); an absent entry exposes the default builtins. -/
def builtinsVisible (globals : List (String × PyVal)) (name : String) : Bool :=
  match dictGet globals "__builtins__" with
  | some (.dict b) => hasKey b name
  | some _ => false
  | Option.none => defaultBuiltinNames.contains name

/-- Whether a plain name in the evaluated expression resolves at all. -/
def evalNameReachable (globals locals : List (String × PyVal))
    (name : String) : Bool :=
  hasKey locals name || hasKey globals name || builtinsVisible globals name

/-- Globals passed by `PipelineEngine._evaluate_condition`:
    `eval(condition, \x7b\x7d, eval_context)` — an empty dict with no
    `__builtins__` key. -/
def engineGuardGlobals : List (String × PyVal) := []

/-- Locals passed by `PipelineEngine._evaluate_condition`: `context`,
    `variables`, `results`, `errors` (no `state`). -/
def engineGuardLocals (ctx : Ctx) : List (String × PyVal) :=
  [("context", ctxAsPyDict ctx), ("variables", .dict ctx.vars),
   ("results", .dict ctx.results), ("errors", .list (ctx.errors.map .str))]

/-- Globals passed by `ConditionComponent.execute`:
    `\x7b"__builtins__": \x7b\x7d\x7d`. -/
def conditionComponentGlobals : List (String × PyVal) :=
  [("__builtins__", .dict [])]

/-- Locals passed by `ConditionComponent.execute`: `context`, `variables`,
    `state`, `results` (no `errors`). -/
def conditionComponentLocals (ctx : Ctx) : List (String × PyVal) :=
  [("context", ctxAsPyDict ctx), ("variables", .dict ctx.vars),
   ("state", .dict ctx.state), ("results", .dict ctx.results)]

/-! ## LoopComponent (components.py) -/

/-- Python `int(v)` on the values a loop parameter can carry
    (`Option.none` = raises). -/
def pyInt : PyVal → Option Int
  | .int n => some n
  | .bool b => some (cond b 1 0)
  | .str s => s.toInt?
  | _ => Option.none

/-- Python `xs[:m]`: a non-negative bound keeps the first `m` elements, a
    negative bound drops the last `|m|`. -/
def pySlice {α : Type} (xs : List α) (m : Int) : List α :=
  if 0 ≤ m then xs.take m.toNat
  else xs.take ((xs.length : Int) + m).toNat

/-- Oracles of a loop invocation: `eval` of the while-condition in the
    loop eval namespace (`Except.error` = raised) and one full sub-engine
    run of the nested step list on the shared context, indexed by the
    iteration number. -/
structure LoopEnv where
  (condO : String → Ctx → Except String Bool)
  (body : Nat → Ctx → Bool × Ctx)

/-- Result of one of the three loop drivers, or the exception propagating
    out of a while-condition evaluation. -/
inductive LoopRes where
  | fin (success : Bool) (done : Nat) (ctx : Ctx)
  | exn (msg : String) (ctx : Ctx)

/-- The `count` loop: `for i in range(min(iterations, max_iterations))`
    with `fuel` that range length; writes `variables["loop_index"]`, runs
    the nested steps, stops on the first inner failure reporting the
    iterations completed before it. -/
def countLoop (body : Nat → Ctx → Bool × Ctx) :
    Nat → Nat → Nat → Ctx → Bool × Nat × Ctx
  | 0, _, done, ctx => (true, done, ctx)
  | fuel + 1, i, done, ctx =>
    match body i { ctx with vars := dictSet ctx.vars "loop_index" (.int i) } with
    | (true, ctx2) => countLoop body fuel (i + 1) (i + 1) ctx2
    | (false, ctx2) => (false, done, ctx2)

/-- The `while` loop: evaluate the condition (a raise escapes to the
    outer `except`), stop when it is false or `iterations_done` reached
    `max_iterations`, else write `loop_index`, run the nested steps and
    continue. -/
def whileLoop (condO : String → Ctx → Except String Bool) (c : String)
    (body : Nat → Ctx → Bool × Ctx) (maxI : Int) (done : Nat) (ctx : Ctx) :
    LoopRes :=
  match condO c ctx with
  | .error e => .exn e ctx
  | .ok cv =>
    if h : cv = true ∧ (done : Int) < maxI then
      match body done { ctx with vars := dictSet ctx.vars "loop_index" (.int done) } with
      | (true, ctx2) => whileLoop condO c body maxI (done + 1) ctx2
      | (false, ctx2) => .fin false done ctx2
    else .fin true done ctx
termination_by (maxI - done).toNat
decreasing_by
  have := h.2
  omega

/-- The `for` loop: `for i, item in enumerate(collection[:max_iterations])`;
    writes `variables[item_var]` and `variables["loop_index"]`. -/
def forLoop (body : Nat → Ctx → Bool × Ctx) (item_var : String) :
    List PyVal → Nat → Nat → Ctx → Bool × Nat × Ctx
  | [], _, done, ctx => (true, done, ctx)
  | item :: rest, i, done, ctx =>
    match body i { ctx with
      vars := dictSet (dictSet ctx.vars item_var item) "loop_index" (.int i) } with
    | (true, ctx2) => forLoop body item_var rest (i + 1) (i + 1) ctx2
    | (false, ctx2) => (false, done, ctx2)

/-- Package a loop driver result the way `LoopComponent.execute` returns
    it: on success `iterations_done` and `max_reached`, on an inner
    failure the fixed error text plus `iterations_done`. -/
def loopOutcome (maxI : Int) : Bool × Nat × Ctx → Outcome
  | (true, done, ctx) =>
    .ret true (.dict [("iterations_done", .int done),
      ("max_reached", .bool (decide ((done : Int) ≥ maxI)))]) ctx
  | (false, done, ctx) =>
    .ret false (.dict [("error", .str "Błąd wykonania kroków pętli"),
      ("iterations_done", .int done)]) ctx

/-- `LoopComponent.execute`: requires `type` and `steps`;
    `max_iterations` defaults to 100; dispatches on the loop type; a
    raise anywhere (missing parameter, non-integer bound, slicing a dict,
    a failing while-condition evaluation) is caught by the component and
    becomes a `(False, error)` return.  The nested step list itself is
    executed by the `LoopEnv.body` oracle (a fresh engine run sharing the
    context). -/
def loopComponent (lenv : LoopEnv) (params : List (String × PyVal))
    (ctx : Ctx) : Outcome :=
  match dictGet params "type", dictGet params "steps" with
  | Option.none, Option.none =>
    .ret false (.dict [("error",
      .str "Błąd wykonania pętli: Brakujące parametry dla komponentu loop: type, steps")]) ctx
  | Option.none, some _ =>
    .ret false (.dict [("error",
      .str "Błąd wykonania pętli: Brakujące parametry dla komponentu loop: type")]) ctx
  | some _, Option.none =>
    .ret false (.dict [("error",
      .str "Błąd wykonania pętli: Brakujące parametry dla komponentu loop: steps")]) ctx
  | some loopType, some _ =>
    match pyInt ((dictGet params "max_iterations").getD (.int 100)) with
    | Option.none =>
      .ret false (.dict [("error",
        .str "Błąd wykonania pętli: nieprawidłowy max_iterations")]) ctx
    | some maxI =>
      match loopType with
      | .str lt =>
        if lt == "count" then
          match dictGet params "iterations" with
          | Option.none =>
            .ret false (.dict [("error",
              .str "Błąd wykonania pętli: Brakujące parametry dla komponentu loop: iterations")]) ctx
          | some itv =>
            match pyInt itv with
            | Option.none =>
              .ret false (.dict [("error",
                .str "Błąd wykonania pętli: nieprawidłowe iterations")]) ctx
            | some its =>
              loopOutcome maxI (countLoop lenv.body (min its maxI).toNat 0 0 ctx)
        else if lt == "while" then
          match dictGet params "condition" with
          | Option.none =>
            .ret false (.dict [("error",
              .str "Błąd wykonania pętli: Brakujące parametry dla komponentu loop: condition")]) ctx
          | some (.str c) =>
            match whileLoop lenv.condO c lenv.body maxI 0 ctx with
            | .fin s done ctx' => loopOutcome maxI (s, done, ctx')
            | .exn e ctx' =>
              .ret false (.dict [("error",
                .str ("Błąd wykonania pętli: " ++ e))]) ctx'
          | some _ =>
            .ret false (.dict [("error",
              .str "Błąd wykonania pętli: warunek nie jest tekstem")]) ctx
        else if lt == "for" then
          match dictGet params "collection", dictGet params "item_var" with
          | Option.none, Option.none =>
            .ret false (.dict [("error",
              .str "Błąd wykonania pętli: Brakujące parametry dla komponentu loop: collection, item_var")]) ctx
          | Option.none, some _ =>
            .ret false (.dict [("error",
              .str "Błąd wykonania pętli: Brakujące parametry dla komponentu loop: collection")]) ctx
          | some _, Option.none =>
            .ret false (.dict [("error",
              .str "Błąd wykonania pętli: Brakujące parametry dla komponentu loop: item_var")]) ctx
          | some coll0, some itemVar =>
            let resolved : Except String PyVal :=
              match coll0 with
              | .str t =>
                if t.startsWith "$\x7b" && t.endsWith "\x7d" then
                  let vn := ((t.drop 2).dropRight 1).trim
                  match plainGet (ctxAsPyDict ctx) (splitDots vn) with
                  | .ok v => .ok v
                  | .error _ => .error vn
                else .ok (.str t)
              | v => .ok v
            match resolved with
            | .error vn =>
              .ret false (.dict [("error",
                .str ("Nie znaleziono zmiennej " ++ vn))]) ctx
            | .ok coll =>
              match coll with
              | .list xs =>
                loopOutcome maxI
                  (forLoop lenv.body (keyOf itemVar) (pySlice xs maxI) 0 0 ctx)
              | .str s =>
                loopOutcome maxI
                  (forLoop lenv.body (keyOf itemVar)
                    ((pySlice s.data maxI).map (fun ch => .str (String.mk [ch]))) 0 0 ctx)
              | .dict _ =>
                .ret false (.dict [("error",
                  .str "Błąd wykonania pętli: unhashable type: \x27slice\x27")]) ctx
              | _ =>
                .ret false (.dict [("error",
                  .str "Kolekcja nie jest iterowalna")]) ctx
        else
          .ret false (.dict [("error", .str ("Nieznany typ pętli: " ++ lt))]) ctx
      | v =>
        .ret false (.dict [("error", .str ("Nieznany typ pętli: " ++ pyStr v))]) ctx

/-- The `iterations_done` field of a loop result value. -/
def resultIters (r : PyVal) : Option Int :=
  match r with
  | .dict kvs =>
    match dictGet kvs "iterations_done" with
    | some (.int n) => some n
    | _ => Option.none
  | _ => Option.none

/-! ## Concrete fixtures used for witnesses and counterexamples -/

/-- Context of a freshly loaded pipeline without seed variables. -/
def ctx0 : Ctx := { vars := [], state := [], results := [], errors := [] }

/-- An environment with trivial oracles. -/
def envNull : Env :=
  { evalO := fun _ _ => some true,
    execO := fun _ _ c => .ok (PyVal.none, c),
    shellO := fun _ _ => .ok (0, "", ""),
    registry := fun _ => Option.none,
    subRunO := fun _ _ => Option.none }

/-- Guard evaluation yields false on every condition. -/
def envFalseGuard : Env := { envNull with evalO := fun _ _ => some false }

/-- Guard evaluation raises on every condition. -/
def envRaiseGuard : Env := { envNull with evalO := fun _ _ => Option.none }

/-- A parental-control collaborator that denies everything. -/
def pcDeny : PCOracle :=
  { check_time := false, check_usage := false, remaining := 0,
    filterO := fun _ => (Option.none, "Treść zablokowana") }

/-- A registry exposing only the (denying) parental-control component. -/
def envPC : Env :=
  { envNull with registry := fun n =>
      if n == "parental_control" then some (parentalControlComponent pcDeny)
      else Option.none }

/-- A step invoking `parental_control` with `check_time`. -/
def stepPC : Step :=
  { name := some "pc", type := some "component",
    component := some "parental_control",
    params := [("action", .str "check_time")] }

/-- A one-step pipeline invoking `parental_control` with `check_time`. -/
def pipelinePC : Pipeline := { steps := [stepPC] }

/-- Loop oracles: the while-condition is false, the nested steps succeed
    without touching the context. -/
def loopEnvOk : LoopEnv :=
  { condO := fun _ _ => .ok false, body := fun _ c => (true, c) }

/-- A sub-engine run ending with variables `a=9, b=2`. -/
def subW : SubRun :=
  { success := true, vars := [("a", .int 9), ("b", .int 2)],
    results := [], errors := [] }

/-- An environment whose sub-pipeline oracle always yields `subW`. -/
def envSub : Env := { envNull with subRunO := fun _ _ => some subW }

/-- A `pipeline` step exporting variables. -/
def stepSub : Step :=
  { type := some "pipeline", path := some "sub.yaml", export_variables := true }

/-- A parent context whose variables hold `a=1`. -/
def ctxParent : Ctx :=
  { vars := [("a", .int 1)], state := [], results := [], errors := [] }

/-! ## Claims -/

/-- Claim C1, counterexample: a one-step pipeline whose guard evaluates
    false ends with `results` CONTAINING the step name, bound to `None` —
    the claim that `results[step.name]` stays unset is false on the code
    (`_execute_pipeline` stores the dispatcher result unconditionally). -/
theorem C1_counterexample :
    (executePipeline envFalseGuard
        { steps := [{ name := some "s0", type := some "python",
                      if_ := some "False", code := some "result = 1" }] }).2.results
      = [("s0", PyVal.none)] ∧
    hasKey (executePipeline envFalseGuard
        { steps := [{ name := some "s0", type := some "python",
                      if_ := some "False", code := some "result = 1" }] }).2.results "s0"
      = true := by
  exact ⟨rfl, rfl⟩

/-- Claim C1 (amended): for a step with a type whose guard evaluates
    false, the dispatcher returns success with a null result and leaves
    the context untouched; the driver then writes `results[step.name] =
    None` — that key is the only context change — and proceeds. -/
theorem C1_skip_frame (env : Env) (step : Step) (ctx : Ctx) (t : String)
    (rest : List Step) (i : Nat)
    (htype : step.type = some t)
    (hguard : evaluateCondition env.evalO ctx step.if_ = false) :
    executeStep env step ctx = ((true, PyVal.none), ctx) ∧
    executeSteps env (step :: rest) i ctx =
      executeSteps env rest (i + 1)
        { ctx with results :=
            dictSet ctx.results (step.name.getD ("step_" ++ toString i)) PyVal.none } := by
  have h1 : executeStep env step ctx = ((true, PyVal.none), ctx) := by
    unfold executeStep
    rw [htype, hguard]
    simp
  refine ⟨h1, ?_⟩
  simp only [executeSteps, h1]
  simp

/-- Closed instance of `C1_skip_frame`. -/
theorem C1_skip_frame_witness :
    evaluateCondition envFalseGuard.evalO ctx0 (some "False") = false ∧
    executeStep envFalseGuard
      { name := some "s0", type := some "python", if_ := some "False" } ctx0
      = ((true, PyVal.none), ctx0) := by
  exact ⟨rfl,
    (C1_skip_frame envFalseGuard
      { name := some "s0", type := some "python", if_ := some "False" }
      ctx0 "python" [] 0 rfl rfl).1⟩

/-- Claim C2: a failing step without `continue_on_error` makes the driver
    return false with the context exactly as it was after recording that
    step's result — so no later step runs or writes `results`; with
    `continue_on_error` the driver proceeds to the remaining steps. -/
theorem C2_continue_policy (env : Env) (step : Step) (ctx c' : Ctx)
    (r : PyVal) (rest : List Step) (i : Nat)
    (hfail : executeStep env step ctx = ((false, r), c')) :
    (step.continue_on_error = false →
      executeSteps env (step :: rest) i ctx =
        (false,
         { c' with results :=
                     dictSet c'.results (step.name.getD ("step_" ++ toString i)) r })) ∧
    (step.continue_on_error = true →
      executeSteps env (step :: rest) i ctx =
        executeSteps env rest (i + 1)
          { c' with results :=
                      dictSet c'.results (step.name.getD ("step_" ++ toString i)) r }) := by
  constructor <;> intro hc <;> simp only [executeSteps, hfail, hc] <;> simp

/-- Closed instance of `C2_continue_policy`: an unknown component name
    raises, the step fails, and the driver aborts before the second step,
    whose name never enters `results`. -/
theorem C2_continue_policy_witness :
    executeStep envNull
      { name := some "bad", type := some "component", component := some "nope" } ctx0
      = ((false, .dict [("error", .str "Błąd wykonania kroku: Nieznany komponent: nope")]),
         { ctx0 with errors := ["Błąd wykonania kroku: Nieznany komponent: nope"] }) ∧
    executeSteps envNull
      [{ name := some "bad", type := some "component", component := some "nope" },
       { name := some "later", type := some "python", code := some "result = 1" }] 0 ctx0
      = (false,
         { vars := [], state := [],
           results := [("bad", .dict [("error", .str "Błąd wykonania kroku: Nieznany komponent: nope")])],
           errors := ["Błąd wykonania kroku: Nieznany komponent: nope"] }) := by
  refine ⟨rfl, ?_⟩
  have h := (C2_continue_policy envNull
    { name := some "bad", type := some "component", component := some "nope" }
    ctx0
    { ctx0 with errors := ["Błąd wykonania kroku: Nieznany komponent: nope"] }
    (.dict [("error", .str "Błąd wykonania kroku: Nieznany komponent: nope")])
    [{ name := some "later", type := some "python", code := some "result = 1" }]
    0 rfl).1 rfl
  exact h

/-- Claim C3, counterexample: a step whose `type` is the literal `script`
    is not dispatched to any script handler — `_execute_step` raises
    `Nieznany typ kroku: script`, the step fails and the message is
    appended to `errors`; `script` is not among the accepted types. -/
theorem C3_counterexample :
    executeStep envNull
      { name := some "s", type := some "script", code := some "result = 1" } ctx0
      = ((false, .dict [("error", .str "Błąd wykonania kroku: Nieznany typ kroku: script")]),
         { ctx0 with errors := ["Błąd wykonania kroku: Nieznany typ kroku: script"] }) ∧
    ("script" ∈ acceptedTypes → False) := by
  exact ⟨rfl, by decide⟩

/-- Claim C3 (amended): the script-step literal is `python`, not
    `script`; the accepted step types are exactly `component`, `shell`,
    `python`, `pipeline`; any other type raises the unknown-type error;
    a `python` step goes to `_execute_python_step`, which requires `code`,
    resolves it and returns the `result` binding of the executed code. -/
theorem C3_python_dispatch :
    acceptedTypes = ["component", "shell", "python", "pipeline"] ∧
    (∀ (env : Env) (step : Step) (ctx : Ctx) (t : String), t ∉ acceptedTypes →
      dispatch env t step ctx = .exn ("Nieznany typ kroku: " ++ t) ctx) ∧
    (∀ (env : Env) (step : Step) (ctx : Ctx),
      dispatch env "python" step ctx = executePythonStep env step ctx) ∧
    (∀ (env : Env) (step : Step) (ctx : Ctx) (code : String) (res : PyVal) (ctx2 : Ctx),
      step.code = some code →
      env.execO (resolveVariablesInString ctx code) step.imports ctx = .ok (res, ctx2) →
      executePythonStep env step ctx = .ret true res ctx2) := by
  refine ⟨rfl, ?_, ?_, ?_⟩
  · intro env step ctx t h
    simp only [acceptedTypes, List.mem_cons, List.not_mem_nil, or_false] at h
    push_neg at h
    obtain ⟨h1, h2, h3, h4⟩ := h
    simp [dispatch, h1, h2, h3, h4]
  · intro env step ctx
    rfl
  · intro env step ctx code res ctx2 hc he
    unfold executePythonStep
    rw [hc]
    simp [he]

/-- Closed instance of `C3_python_dispatch`. -/
theorem C3_python_dispatch_witness :
    (("script" ∈ acceptedTypes → False) ∧
      dispatch envNull "script" { type := some "script" } ctx0
        = .exn ("Nieznany typ kroku: " ++ "script") ctx0) ∧
    (({ type := some "python", code := some "result = 1" } : Step).code
        = some "result = 1" ∧
      executePythonStep envNull
        { type := some "python", code := some "result = 1" } ctx0
        = .ret true PyVal.none ctx0) := by
  refine ⟨⟨by decide, ?_⟩, rfl, ?_⟩
  · exact C3_python_dispatch.2.1 envNull { type := some "script" } ctx0 "script" (by decide)
  · exact C3_python_dispatch.2.2.2 envNull
      { type := some "python", code := some "result = 1" } ctx0
      "result = 1" PyVal.none ctx0 rfl rfl

/-- Claim C4, counterexample: a guard whose evaluation raises makes the
    step be skipped and the run proceed, but NO diagnostic is appended to
    the context's `errors` list (the message is only printed): after the
    step, `errors` is still empty. -/
theorem C4_counterexample :
    executeStep envRaiseGuard
      { name := some "s", type := some "python", if_ := some "1/0",
        code := some "result = 1" } ctx0
      = ((true, PyVal.none), ctx0) ∧
    (executeStep envRaiseGuard
      { name := some "s", type := some "python", if_ := some "1/0",
        code := some "result = 1" } ctx0).2.errors = [] := by
  exact ⟨rfl, rfl⟩

/-- Claim C4 (amended): a guard whose evaluation raises is treated as
    false and the step is skipped with a `(True, None)` result, the run
    not aborted; the context — including `errors` — is returned exactly
    as it was (the diagnostic is only printed to stdout). -/
theorem C4_guard_failure (env : Env) (ctx : Ctx) (c : String) (step : Step)
    (t : String)
    (hraise : env.evalO (resolveVariablesInString ctx c) ctx = Option.none)
    (hif : step.if_ = some c) (htype : step.type = some t) :
    evaluateCondition env.evalO ctx step.if_ = false ∧
    executeStep env step ctx = ((true, PyVal.none), ctx) := by
  have h1 : evaluateCondition env.evalO ctx step.if_ = false := by
    rw [hif]
    simp only [evaluateCondition, hraise]
  refine ⟨h1, ?_⟩
  unfold executeStep
  rw [htype, h1]
  simp

/-- Closed instance of `C4_guard_failure`. -/
theorem C4_guard_failure_witness :
    envRaiseGuard.evalO (resolveVariablesInString ctx0 "1/0") ctx0 = Option.none ∧
    executeStep envRaiseGuard
      { name := some "s", type := some "python", if_ := some "1/0" } ctx0
      = ((true, PyVal.none), ctx0) := by
  exact ⟨rfl, (C4_guard_failure envRaiseGuard ctx0 "1/0"
    { name := some "s", type := some "python", if_ := some "1/0" }
    "python" rfl rfl rfl).2⟩

/-- Claim C5, counterexample: a `parental_control` `check_time` step whose
    collaborator denies produces a failing step (false success flag,
    nothing raised) and the run aborts — yet `errors` stays empty: no
    error descriptor of any form is appended. -/
theorem C5_counterexample :
    executePipeline envPC pipelinePC
      = (false, { vars := [], state := [],
                  results := [("pc", .dict [("allowed", .bool false)])],
                  errors := [], parental_control := true }) ∧
    (executePipeline envPC pipelinePC).2.errors = [] := by
  exact ⟨rfl, rfl⟩

/-- Claim C5 (amended): the engine appends to `errors` only when the step
    handler raises, and then a flat string `Błąd wykonania kroku: <msg>`
    carrying neither the step name nor a kind; a handler returning a
    false success flag without raising passes through with `errors`
    exactly as the handler left them. -/
theorem C5_error_append (env : Env) (step : Step) (ctx : Ctx) (t : String)
    (htype : step.type = some t)
    (hguard : evaluateCondition env.evalO ctx step.if_ = true) :
    (∀ (s : Bool) (r : PyVal) (c : Ctx), dispatch env t step ctx = .ret s r c →
       executeStep env step ctx = ((s, r), c)) ∧
    (∀ (m : String) (c : Ctx), dispatch env t step ctx = .exn m c →
       executeStep env step ctx =
         ((false, .dict [("error", .str ("Błąd wykonania kroku: " ++ m))]),
          { c with errors := c.errors ++ ["Błąd wykonania kroku: " ++ m] })) := by
  constructor
  · intro s r c hd
    unfold executeStep
    rw [htype, hguard]
    simp [hd]
  · intro m c hd
    unfold executeStep
    rw [htype, hguard]
    simp [hd, stepFailure, appendError]

/-- Closed instance of `C5_error_append`: the denying `check_time`
    component returns a false success flag, and the engine records the
    step as failed with `errors` untouched (still empty). -/
theorem C5_error_append_witness :
    dispatch envPC "component" stepPC ctx0
      = .ret false (.dict [("allowed", .bool false)]) { ctx0 with parental_control := true } ∧
    executeStep envPC stepPC ctx0
      = ((false, .dict [("allowed", .bool false)]), { ctx0 with parental_control := true }) ∧
    ({ ctx0 with parental_control := true } : Ctx).errors = [] := by
  refine ⟨rfl, ?_, rfl⟩
  exact (C5_error_append envPC stepPC ctx0 "component" rfl rfl).1 false
    (.dict [("allowed", .bool false)]) { ctx0 with parental_control := true } rfl

/-- Claim C6, counterexample: in the namespace of the engine's `if`-guard
    `eval` (empty globals without a `__builtins__` key), the builtin
    `__import__` — process and I/O access — resolves even though it is not
    one of the exposed context roots. -/
theorem C6_counterexample :
    evalNameReachable engineGuardGlobals (engineGuardLocals ctx0) "__import__" = true ∧
    hasKey (engineGuardLocals ctx0) "__import__" = false := by
  exact ⟨rfl, rfl⟩

/-- Claim C6 (amended): the `condition` component evaluates with globals
    binding `__builtins__` to an empty dict, so a name resolves there only
    if it is one of its locals (`context`, `variables`, `state`, `results`
    — no `errors`) or the literal `__builtins__`; the engine's `if`-guard
    `eval` passes an empty globals dict without a `__builtins__` key, so
    besides its locals (`context`, `variables`, `results`, `errors` — no
    `state`) every default builtin name remains reachable. -/
theorem C6_namespace (ctx : Ctx) (n : String) :
    evalNameReachable conditionComponentGlobals (conditionComponentLocals ctx) n
      = (hasKey (conditionComponentLocals ctx) n || ("__builtins__" == n)) ∧
    evalNameReachable engineGuardGlobals (engineGuardLocals ctx) n
      = (hasKey (engineGuardLocals ctx) n || defaultBuiltinNames.contains n) := by
  constructor
  · by_cases h : ("__builtins__" : String) = n
    · simp [evalNameReachable, builtinsVisible, conditionComponentGlobals,
        hasKey, dictGet, h]
    · simp [evalNameReachable, builtinsVisible, conditionComponentGlobals,
        hasKey, dictGet, h]
  · simp [evalNameReachable, builtinsVisible, engineGuardGlobals, hasKey, dictGet]

/-- The walk of `replace_var` returns the empty string whenever its miss
    mirror reports a miss; the auxiliary invariant carries the fact that a
    recorded miss means the walk is currently on the empty string. -/
theorem resolveGo_of_missGo (ctx : Ctx) :
    ∀ (parts : List String) (cur : PyVal) (missed : Bool),
      (missed = true → cur = .str "") →
      missGo ctx cur missed parts = true →
      resolveGo ctx cur parts = "" := by
  intro parts
  induction parts with
  | nil =>
    intro cur missed hinv hm
    simp only [missGo] at hm
    rw [hinv hm]
    rfl
  | cons p rest ih =>
    intro cur missed hinv hm
    simp only [missGo] at hm
    simp only [resolveGo]
    by_cases h1 : p == "variables"
    · simp only [h1, if_true] at hm ⊢
      exact ih _ false (fun hx => Bool.noConfusion hx) hm
    · by_cases h2 : p == "results"
      · simp only [h1, h2, if_true, if_false] at hm ⊢
        exact ih _ false (fun hx => Bool.noConfusion hx) hm
      · by_cases h3 : p == "errors"
        · simp only [h1, h2, h3, if_true, if_false] at hm ⊢
          exact ih _ false (fun hx => Bool.noConfusion hx) hm
        · by_cases h4 : p == "state"
          · simp only [h1, h2, h3, h4, if_true, if_false] at hm ⊢
            exact ih _ false (fun hx => Bool.noConfusion hx) hm
          · simp only [h1, h2, h3, h4, if_false] at hm ⊢
            cases cur with
            | dict kvs =>
              cases hdg : dictGet kvs p with
              | some v =>
                simp only [hdg] at hm
                simp only [hdg, Option.getD_some]
                cases missed with
                | true => exact PyVal.noConfusion (hinv rfl)
                | false => exact ih v false (fun hx => Bool.noConfusion hx) hm
              | none =>
                simp only [hdg] at hm
                simp only [hdg, Option.getD_none]
                exact ih (.str "") true (fun _ => rfl) hm
            | none => rfl
            | bool b => rfl
            | int n => rfl
            | str s => rfl
            | list xs => rfl
            | obj t => rfl

/-- Claim C7: a `$\x7bPATH\x7d` reference whose dotted path misses (an
    absent key or a non-mapping intermediate, with no later root-segment
    reset) is substituted by the empty string; `replace_var` and the whole
    string resolver are total functions, so no exception can escape and a
    string is always returned. -/
theorem C7_miss_tolerance (ctx : Ctx) (name : String)
    (h : pathMisses ctx name = true) : replaceVar ctx name = "" := by
  unfold pathMisses at h
  unfold replaceVar
  exact resolveGo_of_missGo ctx (splitDots name) (ctxAsPyDict ctx) false
    (fun hx => Bool.noConfusion hx) h

/-- Closed instance of `C7_miss_tolerance`: `variables.zz` is absent in an
    empty context. -/
theorem C7_miss_tolerance_witness :
    pathMisses ctx0 "variables.zz" = true ∧ replaceVar ctx0 "variables.zz" = "" :=
  ⟨rfl, C7_miss_tolerance ctx0 "variables.zz" rfl⟩

theorem dictGet_append_left (b : List (String × PyVal)) (k : String) :
    ∀ a : List (String × PyVal), hasKey a k = true →
      dictGet (a ++ b) k = dictGet a k := by
  intro a
  induction a with
  | nil => intro h; simp [hasKey, dictGet] at h
  | cons kv rest ih =>
    intro h
    obtain ⟨k', v⟩ := kv
    by_cases hk : k' == k
    · simp [dictGet, hk]
    · simp only [List.cons_append, dictGet, hk, if_false]
      apply ih
      simp only [hasKey, dictGet, hk, if_false] at h
      exact h

theorem dictGet_append_right (b : List (String × PyVal)) (k : String) :
    ∀ a : List (String × PyVal), hasKey a k = false →
      dictGet (a ++ b) k = dictGet b k := by
  intro a
  induction a with
  | nil => intro _; rfl
  | cons kv rest ih =>
    intro h
    obtain ⟨k', v⟩ := kv
    by_cases hk : k' == k
    · simp [hasKey, dictGet, hk] at h
    · simp only [List.cons_append, dictGet, hk, if_false]
      apply ih
      simp only [hasKey, dictGet, hk, if_false] at h
      exact h

theorem hasKey_append (b : List (String × PyVal)) (k : String) :
    ∀ a : List (String × PyVal),
      hasKey (a ++ b) k = (hasKey a k || hasKey b k) := by
  intro a
  induction a with
  | nil => simp [hasKey, dictGet]
  | cons kv rest ih =>
    obtain ⟨k', v⟩ := kv
    by_cases hk : k' == k
    · simp [hasKey, dictGet, hk]
    · simp only [List.cons_append, hasKey, dictGet, hk, if_false]
      exact ih

theorem exportMerge_cons (parent : List (String × PyVal))
    (kv : String × PyVal) (sub : List (String × PyVal)) :
    exportMerge parent (kv :: sub)
      = exportMerge (if hasKey parent kv.1 then parent else parent ++ [kv]) sub := by
  by_cases h : hasKey parent kv.1 <;> simp [exportMerge, h]

theorem exportMerge_get_mem (sub : List (String × PyVal)) :
    ∀ (parent : List (String × PyVal)) (k : String), hasKey parent k = true →
      dictGet (exportMerge parent sub) k = dictGet parent k := by
  induction sub with
  | nil => intro parent k _; rfl
  | cons kv sub ih =>
    intro parent k h
    rw [exportMerge_cons]
    by_cases hp : hasKey parent kv.1
    · rw [if_pos hp]
      exact ih parent k h
    · rw [if_neg hp]
      calc dictGet (exportMerge (parent ++ [kv]) sub) k
          = dictGet (parent ++ [kv]) k := by
            apply ih
            rw [hasKey_append]
            simp [h]
        _ = dictGet parent k := dictGet_append_left [kv] k parent h

theorem exportMerge_get_new (sub : List (String × PyVal)) :
    ∀ (parent : List (String × PyVal)) (k : String), hasKey parent k = false →
      dictGet (exportMerge parent sub) k = dictGet sub k := by
  induction sub with
  | nil =>
    intro parent k h
    show dictGet parent k = dictGet [] k
    cases hdg : dictGet parent k with
    | some v => rw [hasKey, hdg] at h; simp at h
    | none => rfl
  | cons kv sub ih =>
    intro parent k h
    obtain ⟨k', v⟩ := kv
    rw [exportMerge_cons]
    by_cases hk : k' == k
    · have hkeq : k' = k := eq_of_beq hk
      subst hkeq
      rw [if_neg (by simp [h])]
      have hmem : hasKey (parent ++ [(k', v)]) k' = true := by
        rw [hasKey_append]
        simp [hasKey, dictGet]
      rw [exportMerge_get_mem sub _ k' hmem,
        dictGet_append_right [(k', v)] k' parent h]
      simp [dictGet]
    · by_cases hp : hasKey parent k'
      · rw [if_pos hp, ih parent k h]
        simp [dictGet, hk]
      · have hside : hasKey (parent ++ [(k', v)]) k = false := by
          rw [hasKey_append, h]
          simp [hasKey, dictGet, hk]
        rw [if_neg hp, ih (parent ++ [(k', v)]) k hside]
        simp [dictGet, hk]

theorem exportMerge_hasKey (parent sub : List (String × PyVal)) (k : String) :
    hasKey (exportMerge parent sub) k = (hasKey parent k || hasKey sub k) := by
  by_cases h : hasKey parent k
  · rw [hasKey, exportMerge_get_mem sub parent k h, ← hasKey, h]
    simp
  · have h' : hasKey parent k = false := by simpa using h
    rw [hasKey, exportMerge_get_new sub parent k h', ← hasKey, h']
    simp

/-- Claim C8: a `pipeline` step leaves the parent's `variables` untouched
    when `export_variables` is false; when it is true, the copy-back gives
    a parent map in which every pre-existing key keeps its parent value,
    every key absent in the parent takes the sub-engine value, and the key
    set is exactly the union. -/
theorem C8_sub_pipeline_isolation (env : Env) (step : Step) (ctx : Ctx)
    (p : String) (sub : SubRun)
    (hpath : step.path = some p)
    (hrun : env.subRunO (resolveVariablesInString ctx p)
              (dictMerge ctx.vars step.vars) = some sub) :
    (step.export_variables = false →
      executeSubPipelineStep env step ctx =
        .ret sub.success
          (.dict [("results", .dict sub.results),
                  ("errors", .list (sub.errors.map .str))]) ctx) ∧
    (step.export_variables = true →
      executeSubPipelineStep env step ctx =
        .ret sub.success
          (.dict [("results", .dict sub.results),
                  ("errors", .list (sub.errors.map .str))])
          { ctx with vars := exportMerge ctx.vars sub.vars }) ∧
    (∀ k, hasKey ctx.vars k = true →
      dictGet (exportMerge ctx.vars sub.vars) k = dictGet ctx.vars k) ∧
    (∀ k, hasKey ctx.vars k = false →
      dictGet (exportMerge ctx.vars sub.vars) k = dictGet sub.vars k) ∧
    (∀ k, hasKey (exportMerge ctx.vars sub.vars) k
        = (hasKey ctx.vars k || hasKey sub.vars k)) := by
  refine ⟨?_, ?_, ?_, ?_, ?_⟩
  · intro hexp
    unfold executeSubPipelineStep
    rw [hpath]
    simp [hrun, hexp]
  · intro hexp
    unfold executeSubPipelineStep
    rw [hpath]
    simp [hrun, hexp]
  · intro k hk
    exact exportMerge_get_mem sub.vars ctx.vars k hk
  · intro k hk
    exact exportMerge_get_new sub.vars ctx.vars k hk
  · intro k
    exact exportMerge_hasKey ctx.vars sub.vars k

/-- Closed instance of `C8_sub_pipeline_isolation`: parent `a=1`, sub-run
    ends with `a=9, b=2`, `export_variables=true`; the parent ends with
    `a=1, b=2`. -/
theorem C8_sub_pipeline_isolation_witness :
    executeSubPipelineStep envSub stepSub ctxParent
      = .ret true (.dict [("results", .dict []), ("errors", .list [])])
          { vars := [("a", .int 1), ("b", .int 2)], state := [], results := [],
            errors := [] } ∧
    exportMerge [("a", .int 1)] [("a", .int 9), ("b", .int 2)]
      = [("a", .int 1), ("b", .int 2)] := by
  refine ⟨?_, rfl⟩
  have h := (C8_sub_pipeline_isolation envSub stepSub ctxParent
    "sub.yaml" subW rfl rfl).2.1 rfl
  exact h

theorem countLoop_le (body : Nat → Ctx → Bool × Ctx) :
    ∀ (fuel i done : Nat) (ctx : Ctx), done ≤ i →
      (countLoop body fuel i done ctx).2.1 ≤ i + fuel := by
  intro fuel
  induction fuel with
  | zero =>
    intro i done ctx h
    simpa [countLoop] using h
  | succ n ih =>
    intro i done ctx h
    simp only [countLoop]
    split
    · exact le_trans (ih (i + 1) (i + 1) _ (le_refl _)) (by omega)
    · simp only []
      omega

theorem forLoop_le (body : Nat → Ctx → Bool × Ctx) (iv : String) :
    ∀ (items : List PyVal) (i done : Nat) (ctx : Ctx), done ≤ i →
      (forLoop body iv items i done ctx).2.1 ≤ i + items.length := by
  intro items
  induction items with
  | nil =>
    intro i done ctx h
    simpa [forLoop] using h
  | cons item rest ih =>
    intro i done ctx h
    simp only [forLoop]
    split
    · exact le_trans (ih (i + 1) (i + 1) _ (le_refl _)) (by simp; omega)
    · simp only [List.length_cons]
      omega

theorem whileLoop_done (condO : String → Ctx → Except String Bool) (c : String)
    (body : Nat → Ctx → Bool × Ctx) (maxI : Int) :
    ∀ (n done : Nat) (ctx : Ctx) (s : Bool) (d : Nat) (c' : Ctx),
      (maxI - done).toNat ≤ n →
      whileLoop condO c body maxI done ctx = .fin s d c' →
      d = done ∨ (d : Int) ≤ maxI := by
  intro n
  induction n with
  | zero =>
    intro done ctx s d c' hn h
    rw [whileLoop] at h
    split at h
    · exact LoopRes.noConfusion h
    · split at h
      · rename_i hcv
        exfalso
        have := hcv.2
        omega
      · injection h with hs hd hc
        exact Or.inl hd.symm
  | succ n ih =>
    intro done ctx s d c' hn h
    rw [whileLoop] at h
    split at h
    · exact LoopRes.noConfusion h
    · split at h
      · rename_i hcv
        split at h
        · rcases ih (done + 1) _ s d c' (by have := hcv.2; omega) h with h1 | h1
          · right
            rw [h1]
            have := hcv.2
            omega
          · right
            exact h1
        · injection h with hs hd hc
          exact Or.inl hd.symm
      · injection h with hs hd hc
        exact Or.inl hd.symm

theorem loopOutcome_iters (maxI : Int) (t : Bool × Nat × Ctx)
    (s : Bool) (r : PyVal) (c : Ctx)
    (h : loopOutcome maxI t = .ret s r c) :
    resultIters r = some (t.2.1 : Int) := by
  obtain ⟨s', d', c'⟩ := t
  cases s' <;> (cases h; simp [resultIters, dictGet])

theorem pySlice_length_le {α : Type} (xs : List α) (m : Int) (h : 0 ≤ m) :
    ((pySlice xs m).length : Int) ≤ m := by
  simp only [pySlice, h, if_true, List.length_take]
  omega

/-- Claim C9 (amended): for any loop invocation with a non-negative
    `max_iterations` (including the default 100), the `iterations_done`
    reported in the result — for all three loop types and for both the
    success and the inner-failure result — never exceeds `max_iterations`.
    (With a negative `max_iterations` the claim fails; see the
    counterexample.) -/
theorem C9_loop_bound (lenv : LoopEnv) (params : List (String × PyVal))
    (ctx : Ctx) (maxI : Int)
    (hmax : pyInt ((dictGet params "max_iterations").getD (.int 100)) = some maxI)
    (hpos : 0 ≤ maxI)
    (s : Bool) (r : PyVal) (c : Ctx) (d : Int)
    (hrun : loopComponent lenv params ctx = .ret s r c)
    (hit : resultIters r = some d) :
    d ≤ maxI := by
  unfold loopComponent at hrun
  split at hrun
  · cases hrun; simp [resultIters, dictGet] at hit
  · cases hrun; simp [resultIters, dictGet] at hit
  · cases hrun; simp [resultIters, dictGet] at hit
  · rw [hmax] at hrun
    simp only [] at hrun
    split at hrun
    · rename_i lt
      split at hrun
      · -- count
        split at hrun
        · cases hrun; simp [resultIters, dictGet] at hit
        · split at hrun
          · cases hrun; simp [resultIters, dictGet] at hit
          · rename_i its _
            have hiters := loopOutcome_iters _ _ _ _ _ hrun
            rw [hiters] at hit
            injection hit with hd
            have hb := countLoop_le lenv.body (min its maxI).toNat 0 0 ctx (le_refl 0)
            omega
      · split at hrun
        · -- while
          split at hrun
          · cases hrun; simp [resultIters, dictGet] at hit
          · rename_i cstr hcond
            split at hrun
            · rename_i s1 done1 ctx1 heq
              have hiters := loopOutcome_iters _ _ _ _ _ hrun
              rw [hiters] at hit
              injection hit with hd
              have hd' : (done1 : Int) = d := hd
              rcases whileLoop_done lenv.condO cstr lenv.body maxI
                  (maxI - 0).toNat 0 ctx s1 done1 ctx1 (le_refl _) heq with h1 | h1
              · rw [h1] at hd'
                omega
              · omega
            · cases hrun; simp [resultIters, dictGet] at hit
          · cases hrun; simp [resultIters, dictGet] at hit
        · split at hrun
          · -- for
            split at hrun
            · cases hrun; simp [resultIters, dictGet] at hit
            · cases hrun; simp [resultIters, dictGet] at hit
            · cases hrun; simp [resultIters, dictGet] at hit
            · rename_i it ov hceq hieq
              split at hrun
              · cases hrun; simp [resultIters, dictGet] at hit
              · split at hrun
                · rename_i xs hxeq
                  have hiters := loopOutcome_iters _ _ _ _ _ hrun
                  rw [hiters] at hit
                  injection hit with hd
                  have hb := forLoop_le lenv.body (keyOf ov) (pySlice xs maxI)
                    0 0 ctx (le_refl 0)
                  have hs := pySlice_length_le xs maxI hpos
                  omega
                · rename_i sstr hseq
                  have hiters := loopOutcome_iters _ _ _ _ _ hrun
                  rw [hiters] at hit
                  injection hit with hd
                  have hb := forLoop_le lenv.body (keyOf ov)
                    ((pySlice sstr.data maxI).map (fun ch => .str (String.mk [ch])))
                    0 0 ctx (le_refl 0)
                  have hs := pySlice_length_le sstr.data maxI hpos
                  simp only [List.length_map] at hb
                  omega
                · cases hrun; simp [resultIters, dictGet] at hit
                · cases hrun; simp [resultIters, dictGet] at hit
          · cases hrun; simp [resultIters, dictGet] at hit
    · cases hrun; simp [resultIters, dictGet] at hit

/-- Claim C9, counterexample: a `count` loop with `iterations = 3` and
    `max_iterations = -1` performs zero iterations and reports
    `iterations_done = 0`, which exceeds `max_iterations`: the bound of
    the claim fails for a negative `max_iterations`. -/
theorem C9_counterexample :
    loopComponent loopEnvOk
      [("type", .str "count"), ("steps", .list []), ("iterations", .int 3),
       ("max_iterations", .int (-1))] ctx0
      = .ret true (.dict [("iterations_done", .int 0), ("max_reached", .bool true)]) ctx0 ∧
    ¬((0 : Int) ≤ -1) := by
  exact ⟨rfl, by decide⟩

/-- Closed instance of `C9_loop_bound`: `count` with `iterations = 5` and
    `max_iterations = 2` stops after 2 iterations. -/
theorem C9_loop_bound_witness :
    loopComponent loopEnvOk
      [("type", .str "count"), ("steps", .list []), ("iterations", .int 5),
       ("max_iterations", .int 2)] ctx0
      = .ret true (.dict [("iterations_done", .int 2), ("max_reached", .bool true)])
          { ctx0 with vars := [("loop_index", .int 1)] } ∧
    (2 : Int) ≤ 2 := by
  refine ⟨rfl, ?_⟩
  exact C9_loop_bound loopEnvOk
    [("type", .str "count"), ("steps", .list []), ("iterations", .int 5),
     ("max_iterations", .int 2)] ctx0 2 rfl (by decide) true
    (.dict [("iterations_done", .int 2), ("max_reached", .bool true)])
    { ctx0 with vars := [("loop_index", .int 1)] } 2 rfl rfl

theorem resolveGo_root (ctx : Ctx) (p : String) (hp : isRootPart p = true) :
    ∀ (cur : PyVal) (rest : List String),
      resolveGo ctx cur (p :: rest) = resolveGo ctx (rootVal ctx p) rest := by
  intro cur rest
  by_cases h1 : p = "variables"
  · subst h1; rfl
  · by_cases h2 : p = "results"
    · subst h2; rfl
    · by_cases h3 : p = "errors"
      · subst h3; rfl
      · by_cases h4 : p = "state"
        · subst h4; rfl
        · exfalso
          rw [isRootPart] at hp
          simp [h1, h2, h3, h4] at hp

theorem resolveGo_nonroot (ctx : Ctx) (a : String) (ha : isRootPart a = false)
    (kvs : List (String × PyVal)) (rest : List String) :
    resolveGo ctx (.dict kvs) (a :: rest)
      = resolveGo ctx ((dictGet kvs a).getD (.str "")) rest := by
  simp only [isRootPart, Bool.or_eq_false_iff] at ha
  obtain ⟨⟨⟨ha1, ha2⟩, ha3⟩, ha4⟩ := ha
  simp [resolveGo, ha1, ha2, ha3, ha4]

/-- Claim C10: a segment named after one of the four context roots resets
    the walk to that root at any position, not only at the front: a
    reference `a.variables.b` with a non-root first segment resolves just
    like `variables.b`; in general, a reference whose path contains a root
    segment resolves either to the empty string (an early non-mapping
    miss) or to the resolution of the remainder from that root — a user
    key with a root name inside a nested map is never reached. -/
theorem C10_root_reset (ctx : Ctx) :
    (∀ (a : String) (rest : List String), isRootPart a = false →
      resolveGo ctx (ctxAsPyDict ctx) (a :: "variables" :: rest)
        = resolveGo ctx (.dict ctx.vars) rest) ∧
    (∀ (cur : PyVal) (pre : List String) (p : String) (rest : List String),
      isRootPart p = true →
      resolveGo ctx cur (pre ++ p :: rest) = "" ∨
      resolveGo ctx cur (pre ++ p :: rest) = resolveGo ctx (rootVal ctx p) rest) := by
  constructor
  · intro a rest ha
    rw [ctxAsPyDict, resolveGo_nonroot ctx a ha, resolveGo_root ctx "variables" rfl]
    rfl
  · intro cur pre
    induction pre generalizing cur with
    | nil =>
      intro p rest hp
      right
      exact resolveGo_root ctx p hp cur rest
    | cons q pre' ih =>
      intro p rest hp
      by_cases hq : isRootPart q = true
      · rw [List.cons_append, resolveGo_root ctx q hq cur (pre' ++ p :: rest)]
        exact ih (rootVal ctx q) p rest hp
      · have hq' : isRootPart q = false := by simpa using hq
        rw [List.cons_append]
        cases cur with
        | dict kvs =>
          rw [resolveGo_nonroot ctx q hq' kvs]
          exact ih _ p rest hp
        | none =>
          left
          simp only [isRootPart, Bool.or_eq_false_iff] at hq'
          obtain ⟨⟨⟨hq1, hq2⟩, hq3⟩, hq4⟩ := hq'
          simp [resolveGo, hq1, hq2, hq3, hq4]
        | bool b =>
          left
          simp only [isRootPart, Bool.or_eq_false_iff] at hq'
          obtain ⟨⟨⟨hq1, hq2⟩, hq3⟩, hq4⟩ := hq'
          simp [resolveGo, hq1, hq2, hq3, hq4]
        | int n =>
          left
          simp only [isRootPart, Bool.or_eq_false_iff] at hq'
          obtain ⟨⟨⟨hq1, hq2⟩, hq3⟩, hq4⟩ := hq'
          simp [resolveGo, hq1, hq2, hq3, hq4]
        | str s =>
          left
          simp only [isRootPart, Bool.or_eq_false_iff] at hq'
          obtain ⟨⟨⟨hq1, hq2⟩, hq3⟩, hq4⟩ := hq'
          simp [resolveGo, hq1, hq2, hq3, hq4]
        | list xs =>
          left
          simp only [isRootPart, Bool.or_eq_false_iff] at hq'
          obtain ⟨⟨⟨hq1, hq2⟩, hq3⟩, hq4⟩ := hq'
          simp [resolveGo, hq1, hq2, hq3, hq4]
        | obj t =>
          left
          simp only [isRootPart, Bool.or_eq_false_iff] at hq'
          obtain ⟨⟨⟨hq1, hq2⟩, hq3⟩, hq4⟩ := hq'
          simp [resolveGo, hq1, hq2, hq3, hq4]

/-- Closed instance of `C10_root_reset`: `a.variables.b` resolves like
    `variables.b`, and a mid-path `state` segment after a non-mapping
    miss yields one of the two allowed outcomes. -/
theorem C10_root_reset_witness :
    (isRootPart "a" = false ∧
      resolveGo ctx0 (ctxAsPyDict ctx0) ["a", "variables", "b"]
        = resolveGo ctx0 (.dict ctx0.vars) ["b"]) ∧
    (isRootPart "state" = true ∧
      (resolveGo ctx0 (.int 7) (["x", "y"] ++ "state" :: ["z"]) = "" ∨
       resolveGo ctx0 (.int 7) (["x", "y"] ++ "state" :: ["z"])
         = resolveGo ctx0 (rootVal ctx0 "state") ["z"])) := by
  refine ⟨⟨rfl, ?_⟩, ⟨rfl, ?_⟩⟩
  · exact (C10_root_reset ctx0).1 "a" ["b"] rfl
  · exact (C10_root_reset ctx0).2 (.int 7) ["x", "y"] "state" ["z"] rfl

end Movatalk
